import Mathlib

/-!
Verification of the GitHub status / GitHub-App token slice of
pipelines-as-code (pkg/provider/github/status.go,
pkg/provider/github/app/token.go, and the Azure DevOps payload types
with CustomTime).  Each Go function relevant to the claims is embedded
as an executable Lean definition; machine state that Go threads share
(the check-run ID cache) is made explicit, and the wall clock is passed
as a parameter wherever the Go code reads it.
-/

namespace PaC

/-- Embeds `provider.StatusOpts` as used by status.go: the fields read or
written by `CreateStatus`, `getOrUpdateCheckRunStatus` and
`createStatusCommit`. -/
structure StatusOpts where
  pipelineRunName : String
  originalPipelineRunName : String
  status : String
  conclusion : String
  title : String
  summary : String
  text : String
  detailsURL : String
deriving Repr, DecidableEq

/-- Embeds `getCheckName` (status.go lines 28-36): application name,
`"app / run"` when both are present, otherwise whichever is set. -/
def getCheckName (applicationName : String) (s : StatusOpts) : String :=
  if applicationName ≠ "" then
    if s.originalPipelineRunName = "" then applicationName
    else applicationName ++ " / " ++ s.originalPipelineRunName
  else s.originalPipelineRunName

/-- Embeds the title/summary derivation and summary prefixing performed by
`CreateStatus` (status.go lines 174-198) before it dispatches to a backend.
The Go `switch statusOpts.Conclusion` is an equality chain; conclusions
outside the four listed cases fall through and leave title/summary as the
caller supplied them. -/
def deriveStatusOpts (applicationName : String) (s0 : StatusOpts) : StatusOpts :=
  let s1 :=
    if s0.conclusion = "success" then
      { s0 with title := "Success",
                summary := "has <b>successfully</b> validated your commit." }
    else if s0.conclusion = "failure" then
      { s0 with title := "Failed", summary := "has <b>failed</b>." }
    else if s0.conclusion = "skipped" then
      { s0 with title := "Skipped", summary := "is skipping this commit." }
    else if s0.conclusion = "neutral" then
      { s0 with title := "Unknown",
                summary := "doesn't know what happened with this commit." }
    else s0
  let s2 :=
    if s1.status = "in_progress" then
      { s1 with title := "CI has Started", summary := "is running." }
    else s1
  let onPr := if s2.originalPipelineRunName ≠ "" then "/" ++ s2.originalPipelineRunName else ""
  { s2 with summary := applicationName ++ onPr ++ " " ++ s2.summary }

/-- The `github.UpdateCheckRunOptions` value built by
`getOrUpdateCheckRunStatus` (status.go lines 101-121).  Timestamps are
modelled as the `Nat` the clock read at that point. -/
structure UpdateCheckRunOpts where
  name : String
  status : String
  outputTitle : String
  outputSummary : String
  outputText : String
  detailsURL : Option String
  completedAt : Option Nat
  conclusion : Option String
deriving Repr, DecidableEq

/-- Embeds the construction of the update options in
`getOrUpdateCheckRunStatus` (status.go lines 101-121): DetailsURL only when
non-empty, and CompletedAt together with Conclusion exactly when the
conclusion is non-empty and not `"pending"`. -/
def buildUpdateOpts (applicationName : String) (now : Nat) (s : StatusOpts) :
    UpdateCheckRunOpts :=
  { name := getCheckName applicationName s
    status := s.status
    outputTitle := s.title
    outputSummary := s.summary
    outputText := s.text
    detailsURL := if s.detailsURL ≠ "" then some s.detailsURL else none
    completedAt :=
      if s.conclusion ≠ "" ∧ s.conclusion ≠ "pending" then some now else none
    conclusion :=
      if s.conclusion ≠ "" ∧ s.conclusion ≠ "pending" then some s.conclusion else none }

/-- The `github.RepoStatus` value sent by `createStatusCommit`
(status.go lines 142-148). -/
structure RepoStatus where
  state : String
  targetURL : String
  description : String
  context : String
deriving Repr, DecidableEq

/-- Embeds the conclusion rewriting of `createStatusCommit`
(status.go lines 132-140): `"skipped"` and `"neutral"` become `"success"`,
then `status == "in_progress"` forces `"pending"`. -/
def commitConclusion (s : StatusOpts) : StatusOpts :=
  let s1 :=
    if s.conclusion = "skipped" then { s with conclusion := "success" }
    else if s.conclusion = "neutral" then { s with conclusion := "success" }
    else s
  if s1.status = "in_progress" then { s1 with conclusion := "pending" } else s1

/-- Embeds the `RepoStatus` built and sent by `createStatusCommit`
(status.go lines 129-151). -/
def buildRepoStatus (applicationName : String) (s : StatusOpts) : RepoStatus :=
  let s' := commitConclusion s
  { state := s'.conclusion
    targetURL := s'.detailsURL
    description := s'.title
    context := getCheckName applicationName s' }

/-- Refinement-side table, following the spec's words for the claim on
title derivation: title from the fixed conclusion table, with
`status = "in_progress"` always winning, and the caller's title kept for
conclusions outside the table. -/
def specTitleTable (s : StatusOpts) : String :=
  if s.status = "in_progress" then "CI has Started"
  else if s.conclusion = "success" then "Success"
  else if s.conclusion = "failure" then "Failed"
  else if s.conclusion = "skipped" then "Skipped"
  else if s.conclusion = "neutral" then "Unknown"
  else s.title

/-- Refinement-side table for the summary body (before the
application-name prefixing), following the spec's words. -/
def specSummaryTable (s : StatusOpts) : String :=
  if s.status = "in_progress" then "is running."
  else if s.conclusion = "success" then "has <b>successfully</b> validated your commit."
  else if s.conclusion = "failure" then "has <b>failed</b>."
  else if s.conclusion = "skipped" then "is skipping this commit."
  else if s.conclusion = "neutral" then "doesn't know what happened with this commit."
  else s.summary

/-- One record of the parsed installation list in
`GetAndUpdateInstallationID` (token.go line 75): only the `ID` field is
read, and it is a nullable pointer. -/
structure Installation where
  instID : Option Int
deriving Repr, DecidableEq

/-- The only error the scan loop of `GetAndUpdateInstallationID` itself
produces: `fmt.Errorf("installation ID is nil")` (token.go line 85).  The
collaborators `GetAppToken` and `github.ListRepos` are modelled as total
capabilities, so their error returns do not appear here. -/
inductive ResolveError where
  | protocolNilID
deriving Repr, DecidableEq

/-- The external collaborators of the resolver, modelled as capabilities:
`getAppToken i` is the installation token obtained by exchanging
installation ID `i` (token.go line 88; it also becomes the provider
client's current token), and `fetchRepos t` is the repository-URL list
that `github.ListRepos` returns when the client currently holds token `t`
(token.go line 108). -/
structure ResolverCtx where
  getAppToken : Int → String
  fetchRepos : String → List String
  targetURL : String

/-- Embeds `Install.listRepos` (token.go lines 105-120): the repo list is
fetched only when the per-resolver cache `ip.repoList` is still nil, is
stored into that cache, and the target URL is searched in the (possibly
cached) list by string equality.  Returns the match result and the new
cache contents. -/
def listRepos (c : ResolverCtx) (token : String) (cache : Option (List String)) :
    Bool × List String :=
  let repoList :=
    match cache with
    | some l => l
    | none => c.fetchRepos token
  (repoList.contains c.targetURL, repoList)

/-- Embeds the scan loop of `GetAndUpdateInstallationID`
(token.go lines 83-102) with the shared mutable state made explicit:
`token` is the Go `token` variable (also standing for the provider
client's current credential), `cache` is `ip.repoList`.  The returned
`List Int` is the trace of installation IDs for which a token exchange
(`GetAppToken`) was invoked, in order; the `Except` carries the final
`(token, installationID)` pair or the nil-ID error.  A record with a nil
ID aborts before any exchange for it; a record with ID 0 skips the
exchange but still runs the repo-list check; a match breaks the loop
returning that record's ID. -/
def installLoop (c : ResolverCtx) :
    List Installation → String → Option (List String) → List Int →
    List Int × Except ResolveError (String × Int)
  | [], token, _cache, log => (log, Except.ok (token, 0))
  | inst :: rest, token, cache, log =>
    match inst.instID with
    | none => (log, Except.error ResolveError.protocolNilID)
    | some i =>
      let token' := if i ≠ 0 then c.getAppToken i else token
      let log' := if i ≠ 0 then log ++ [i] else log
      let res := listRepos c token' cache
      if res.1 then (log', Except.ok (token', i))
      else installLoop c rest token' (some res.2) log'

/-- Embeds the part of `GetAndUpdateInstallationID` (token.go lines 43-103)
that the claims are about: the scan over the parsed installation list,
starting from an empty token and an unfetched repo-list cache.  (The JWT
minting, URL construction and HTTP/JSON plumbing preceding the loop
return their own errors earlier and are not modelled.) -/
def getAndUpdateInstallationID (c : ResolverCtx) (insts : List Installation) :
    List Int × Except ResolveError (String × Int) :=
  installLoop c insts "" none []

/-- The installation IDs the scan exchanges a token for when it traverses
the given records without breaking: every present, non-zero ID in order. -/
def exchangedIDs (insts : List Installation) : List Int :=
  insts.filterMap fun inst =>
    match inst.instID with
    | some i => if i ≠ 0 then some i else none
    | none => none

/-- The value of the Go `token` variable after the scan traverses the
given records without breaking, starting from `t0`: the token of the last
exchanged (present, non-zero) ID, or `t0` if none was exchanged. -/
def lastToken (c : ResolverCtx) (insts : List Installation) (t0 : String) : String :=
  insts.foldl
    (fun t inst =>
      match inst.instID with
      | some i => if i ≠ 0 then c.getAppToken i else t
      | none => t) t0

/-- The claim set of the App JWT built by `GenerateJWT`
(token.go lines 136-147).  `subject`/`audience` mirror the
`RegisteredClaims` fields that the code leaves at their zero values (and
which the JWT library omits from the payload when empty). -/
structure JWTClaim where
  issuer : Int
  expiresAt : Int
  issuedAt : Int
  subject : Option String
  audience : List String
deriving Repr, DecidableEq

/-- Embeds the claim construction of `GenerateJWT` (token.go lines
139-146).  The source reads the wall clock twice: `expirationTime` is
`time.Now().Add(5 * time.Minute)` (first reading, `nowExp`), and
`IssuedAt` is `jwt.NewNumericDate(time.Now())` (second reading, `nowIat`,
taken afterwards, so `nowExp ≤ nowIat` for a monotone clock).  Times are
unix seconds; 5 minutes = 300 s, matching the numeric-date marshalling
granularity. -/
def generateJWTClaims (applicationID : Int) (nowExp nowIat : Int) : JWTClaim :=
  { issuer := applicationID
    expiresAt := nowExp + 300
    issuedAt := nowIat
    subject := none
    audience := [] }

/-! ### The check-run ID cache under concurrency

`getOrUpdateCheckRunStatus` (status.go lines 79-99) performs, for one
`pipelineRunName` key: a `sync.Map` `Load`, on miss a remote
`getExistingCheckRunID` query, on remote miss a remote
`createCheckRunStatus` call, then a `sync.Map` `Store`.  `Load` and
`Store` are individually atomic, each remote call is one round trip, and
nothing serializes the sequence, so two goroutines running it for the same
key interleave at these four points.  The machine below makes that
explicit for two threads and one key. -/

/-- Program counter of one thread running the get-or-create sequence of
`getOrUpdateCheckRunStatus` for a fixed `pipelineRunName`. -/
inductive CachePc where
  | load
  | query
  | create
  | store
  | done
deriving Repr, DecidableEq

/-- One thread: its program counter and its local `checkRunID` variable
(the identifier this caller will use and observe). -/
structure CacheThread where
  pc : CachePc
  val : Option Nat
deriving Repr, DecidableEq

/-- State shared by the two callers: the `sync.Map` entry for the key
(`cache`), the remote side's existing check runs for this external ID
(`remote`, in creation order), the next remote ID to hand out, and how
many remote create calls were issued. -/
structure CacheShared where
  cache : Option Nat
  remote : List Nat
  nextID : Nat
  creates : Nat
deriving Repr, DecidableEq

/-- One atomic step of a thread running the get-or-create sequence:
`load` reads the map (hit goes straight to `store` with the cached ID,
as in status.go lines 84-90); `query` is `getExistingCheckRunID`, which
returns the first remote check run whose external ID matches (lines
50-54) or falls through to `create`; `create` is `createCheckRunStatus`,
obtaining a fresh remote ID (lines 59-75); `store` writes the thread's ID
into the map (line 99). -/
def cacheStep (sh : CacheShared) (t : CacheThread) : CacheShared × CacheThread :=
  match t.pc with
  | CachePc.load =>
    match sh.cache with
    | some i => (sh, { t with pc := CachePc.store, val := some i })
    | none => (sh, { t with pc := CachePc.query })
  | CachePc.query =>
    match sh.remote.head? with
    | some i => (sh, { t with pc := CachePc.store, val := some i })
    | none => (sh, { t with pc := CachePc.create })
  | CachePc.create =>
    ({ sh with remote := sh.remote ++ [sh.nextID],
               nextID := sh.nextID + 1,
               creates := sh.creates + 1 },
     { t with pc := CachePc.store, val := some sh.nextID })
  | CachePc.store =>
    ({ sh with cache := t.val }, { t with pc := CachePc.done })
  | CachePc.done => (sh, t)

/-- A configuration of the two concurrent callers plus the shared state. -/
structure CacheConfig where
  shared : CacheShared
  t1 : CacheThread
  t2 : CacheThread
deriving Repr, DecidableEq

/-- Step thread 1 (`true`) or thread 2 (`false`) of a configuration. -/
def cacheStepConfig (b : Bool) (c : CacheConfig) : CacheConfig :=
  if b then
    let (sh, t) := cacheStep c.shared c.t1
    { c with shared := sh, t1 := t }
  else
    let (sh, t) := cacheStep c.shared c.t2
    { c with shared := sh, t2 := t }

/-- Run a schedule (an interleaving, as a list of thread choices). -/
def cacheRun (sched : List Bool) (c : CacheConfig) : CacheConfig :=
  sched.foldl (fun acc b => cacheStepConfig b acc) c

/-- Both callers start at `load` with no local ID, the per-key cache entry
absent, and no check run existing remotely: the "two concurrent calls on
an empty cache" scenario. -/
def cacheInit : CacheConfig :=
  { shared := { cache := none, remote := [], nextID := 1, creates := 0 }
    t1 := { pc := CachePc.load, val := none }
    t2 := { pc := CachePc.load, val := none } }

/-! ### CustomTime.UnmarshalJSON (Azure DevOps payload types) -/

/-- Outcome of running `CustomTime.UnmarshalJSON` on a raw byte slice:
the method either panics (the Go slice expression `s[1:len(s)-1]` is out
of range), succeeds setting `ct.Time`, or returns the parse error. -/
inductive UnmarshalResult (T : Type) where
  | panicked
  | ok (t : T)
  | err (e : List Char)
deriving Repr, DecidableEq

/-- Embeds `CustomTime.UnmarshalJSON` (part_000 lines 116-129) over raw
bytes modelled as `List Char`.  `zeroT` is the zero `time.Time` value and
`parse` is the external capability `time.Parse(time.RFC3339, ·)`, which
returns either the parsed time or an error.  The method first evaluates
`s[1 : len(s)-1]`, which panics whenever the input has fewer than two
bytes; then the literal `"0001-01-01T00:00:00"` or the empty string yield
the zero time with no error; anything else goes to the parser. -/
def customTimeUnmarshalJSON {T : Type} (zeroT : T)
    (parse : List Char → Except (List Char) T) (b : List Char) :
    UnmarshalResult T :=
  if b.length < 2 then UnmarshalResult.panicked
  else
    let s := (b.drop 1).dropLast
    if s = "0001-01-01T00:00:00".toList ∨ s = [] then UnmarshalResult.ok zeroT
    else
      match parse s with
      | Except.ok t => UnmarshalResult.ok t
      | Except.error e => UnmarshalResult.err e

/-- A resolver context in which no installation token can see the target
repository: every repo-list fetch returns a list without the target URL. -/
def demoCtx : ResolverCtx :=
  { getAppToken := fun i => "tok" ++ toString i
    fetchRepos := fun _ => ["https://g.example/org/other"]
    targetURL := "https://g.example/org/repo" }

/-- Two installation records, the first with ID 0 (no token exchange), the
second with ID 5. -/
def demoInsts : List Installation :=
  [Installation.mk (some 0), Installation.mk (some 5)]

/-- A resolver context in which every repo-list fetch contains the target
URL, so the very first installation matches. -/
def nilDemoCtx : ResolverCtx :=
  { getAppToken := fun i => "tok" ++ toString i
    fetchRepos := fun _ => ["https://g.example/org/repo"]
    targetURL := "https://g.example/org/repo" }

/-- A resolver context with per-installation accessible-repo lists: the
list visible under installation 101's token is r1 only, under 202's token
it contains the target, under 303's token it is r3 only.  This realizes
"only the second installation's accessible-repo list contains the target
repository URL". -/
def perInstCtx : ResolverCtx :=
  { getAppToken := fun i => "tok" ++ toString i
    fetchRepos := fun t =>
      if t = "tok101" then ["https://g.example/org/r1"]
      else if t = "tok202" then ["https://g.example/org/repo"]
      else if t = "tok303" then ["https://g.example/org/r3"]
      else []
    targetURL := "https://g.example/org/repo" }

/-- Three installation records with IDs 101, 202, 303. -/
def threeInsts : List Installation :=
  [Installation.mk (some 101), Installation.mk (some 202), Installation.mk (some 303)]

/-- The racing interleaving of the two cache callers: both load (miss),
both query the remote (empty), both create, both store. -/
def raceSched : List Bool :=
  [true, false, true, false, true, false, true, false]

/-- The sequential interleaving: caller 1 runs its whole sequence, then
caller 2 runs (its load hits the cache, so it stores and finishes). -/
def seqSched : List Bool :=
  [true, true, true, true, false, false]

/-- Wraps character data in JSON string quotes: the raw bytes of a JSON
string token. -/
def quoteChars (s : List Char) : List Char :=
  '"' :: (s ++ ['"'])

/-- A concrete stand-in for `time.Parse(time.RFC3339, ·)` that rejects
every input, echoing it as the error (as a strict parser does on
`"not-a-date"`). -/
def demoParse : List Char → Except (List Char) Nat :=
  fun s => Except.error s

/-- Convenience constructor for concrete `StatusOpts` test inputs, fixing
the fields that the claims under test do not vary. -/
def mkOpts (status conclusion title summary : String) : StatusOpts :=
  { pipelineRunName := "pr-1"
    originalPipelineRunName := "orig-run"
    status := status
    conclusion := conclusion
    title := title
    summary := summary
    text := "some text"
    detailsURL := "https://c.example/log" }

end PaC

namespace PaC

/-- C2: the title/summary derivation in `CreateStatus` is not
unconditional: for the concrete input with conclusion `"pending"` (outside
the fixed table) and status `"completed"`, the caller-supplied title
survives to the backend unchanged — it is none of the five titles the
table can produce — refuting "overwrites any caller-supplied
title/summary for every input, including conclusion values outside the
table". -/
theorem c2_counterexample :
    (deriveStatusOpts "app" (mkOpts "completed" "pending" "CallerTitle" "CallerSummary")).title
        = "CallerTitle" ∧
    "CallerTitle" ∉ ["Success", "Failed", "Skipped", "Unknown", "CI has Started"] := by
  refine ⟨rfl, ?_⟩
  decide

/-- C2 (amended): for every input, the derived title is exactly the fixed
table — `in_progress` always wins with "CI has Started"; conclusions
success/failure/skipped/neutral map to Success/Failed/Skipped/Unknown; any
other conclusion keeps the caller's title — and the summary is the
application name, an optional "/originalPipelineRunName", a space, and the
table's summary body (the caller's summary for out-of-table conclusions),
all before backend dispatch. -/
theorem c2_derivation_matches_table (app : String) (s : StatusOpts) :
    (deriveStatusOpts app s).title = specTitleTable s ∧
    (deriveStatusOpts app s).summary =
      app ++ (if s.originalPipelineRunName ≠ "" then "/" ++ s.originalPipelineRunName else "")
        ++ " " ++ specSummaryTable s := by
  unfold deriveStatusOpts specTitleTable specSummaryTable
  split_ifs <;> simp_all

/-- C3: in the check-run update built by `getOrUpdateCheckRunStatus`, the
completion timestamp is present exactly when the conclusion of the status
is non-empty and not "pending", and the timestamp is present exactly when
the conclusion field of the update is present: neither is ever set
without the other. -/
theorem c3_completedAt_iff_conclusion (app : String) (now : Nat) (s : StatusOpts) :
    ((buildUpdateOpts app now s).completedAt ≠ none ↔
      (s.conclusion ≠ "" ∧ s.conclusion ≠ "pending")) ∧
    ((buildUpdateOpts app now s).completedAt ≠ none ↔
      (buildUpdateOpts app now s).conclusion ≠ none) := by
  unfold buildUpdateOpts
  by_cases h : s.conclusion ≠ "" ∧ s.conclusion ≠ "pending" <;> simp [h]

/-- Helper: once the repo-list cache holds a list without the target URL,
the scan can never match again: it traverses all remaining records
(failing none, all IDs present), exchanges a token for every non-zero ID,
and ends with installation ID 0. -/
theorem installLoop_cached_no_match (c : ResolverCtx) (insts : List Installation)
    (repoL : List String) (hL : c.targetURL ∉ repoL) :
    ∀ (token : String) (log : List Int),
      (∀ inst ∈ insts, inst.instID.isSome) →
      installLoop c insts token (some repoL) log =
        (log ++ exchangedIDs insts, Except.ok (lastToken c insts token, 0)) := by
  induction insts with
  | nil => intro token log _; simp [installLoop, exchangedIDs, lastToken]
  | cons inst rest ih =>
    intro token log hids
    obtain ⟨i, hi⟩ := Option.isSome_iff_exists.mp (hids inst (List.mem_cons_self _ _))
    have hrest : ∀ x ∈ rest, x.instID.isSome := fun x hx => hids x (List.mem_cons_of_mem _ hx)
    by_cases h0 : i = 0
    · subst h0
      simp [installLoop, hi, listRepos, hL, ih _ _ hrest, exchangedIDs, lastToken]
    · simp [installLoop, hi, h0, listRepos, hL, ih _ _ hrest, exchangedIDs, lastToken]

/-- Helper: when no fetchable repo list (and no already-cached list)
contains the target URL, the scan reaches a nil-ID record placed after
`pre` well-formed records and aborts there with the nil-ID error, having
exchanged tokens exactly for the non-zero IDs of `pre`. -/
theorem installLoop_reaches_nil (c : ResolverCtx) (post : List Installation)
    (hmatch : ∀ t, c.targetURL ∉ c.fetchRepos t) :
    ∀ (pre : List Installation) (token : String) (cache : Option (List String))
      (log : List Int),
      (∀ L, cache = some L → c.targetURL ∉ L) →
      (∀ inst ∈ pre, inst.instID.isSome) →
      installLoop c (pre ++ Installation.mk none :: post) token cache log =
        (log ++ exchangedIDs pre, Except.error ResolveError.protocolNilID) := by
  intro pre
  induction pre with
  | nil => intro token cache log _ _; simp [installLoop, exchangedIDs]
  | cons inst rest ih =>
    intro token cache log hcache hids
    obtain ⟨i, hi⟩ := Option.isSome_iff_exists.mp (hids inst (List.mem_cons_self _ _))
    have hrest : ∀ x ∈ rest, x.instID.isSome := fun x hx => hids x (List.mem_cons_of_mem _ hx)
    have hfetch : ∀ t L, some (c.fetchRepos t) = some L → c.targetURL ∉ L := by
      intro t L hEq
      cases hEq
      exact hmatch t
    cases cache with
    | none =>
      by_cases h0 : i = 0
      · subst h0
        simp [installLoop, hi, listRepos, hmatch,
              ih _ _ _ (hfetch token) hrest, exchangedIDs]
      · simp [installLoop, hi, h0, listRepos, hmatch,
              ih _ _ _ (hfetch (c.getAppToken i)) hrest, exchangedIDs]
    | some L =>
      have hLmem : c.targetURL ∉ L := hcache L rfl
      have hLfun : ∀ L', some L = some L' → c.targetURL ∉ L' := by
        intro L' hEq
        cases hEq
        exact hLmem
      by_cases h0 : i = 0
      · subst h0
        simp [installLoop, hi, listRepos, hLmem,
              ih _ _ _ hLfun hrest, exchangedIDs]
      · simp [installLoop, hi, h0, listRepos, hLmem,
              ih _ _ _ hLfun hrest, exchangedIDs]

/-- Helper: in `demoCtx` no repo-list fetch, under any token, contains the
target URL. -/
theorem demoCtx_no_match : ∀ t, demoCtx.targetURL ∉ demoCtx.fetchRepos t := by
  intro t
  show ("https://g.example/org/repo" : String) ∉ ["https://g.example/org/other"]
  decide

/-- C4: the claim "exp equals iat plus exactly 300 seconds" fails on the
code because `GenerateJWT` reads the clock twice — `expirationTime` from
the first reading and `IssuedAt` from a second, later reading: with the
first reading at second 0 and the second reading at second 1, the built
claims have exp = 300 but iat + 300 = 301. -/
theorem c4_counterexample :
    (generateJWTClaims 42 0 1).expiresAt ≠ (generateJWTClaims 42 0 1).issuedAt + 300 := by
  decide

/-- C4 (amended): exp equals the first clock reading plus exactly 300
seconds, so with a monotone clock exp ≤ iat + 300, with equality exactly
when the two readings coincide; the iss claim is the numeric (Int)
application ID, and no subject or audience claim is set. -/
theorem c4_jwt_claims (appID nowExp nowIat : Int) (h : nowExp ≤ nowIat) :
    (generateJWTClaims appID nowExp nowIat).expiresAt = nowExp + 300 ∧
    (generateJWTClaims appID nowExp nowIat).expiresAt ≤
      (generateJWTClaims appID nowExp nowIat).issuedAt + 300 ∧
    (nowExp = nowIat →
      (generateJWTClaims appID nowExp nowIat).expiresAt =
        (generateJWTClaims appID nowExp nowIat).issuedAt + 300) ∧
    (generateJWTClaims appID nowExp nowIat).issuer = appID ∧
    (generateJWTClaims appID nowExp nowIat).subject = none ∧
    (generateJWTClaims appID nowExp nowIat).audience = [] := by
  refine ⟨rfl, ?_, ?_, rfl, rfl, rfl⟩
  · simpa [generateJWTClaims] using add_le_add_right h 300
  · intro hEq
    simp [generateJWTClaims, hEq]

/-- Witness for the amended C4 theorem at app ID 7 with both clock
readings at second 5. -/
theorem c4_jwt_claims_witness :
    (5 : Int) ≤ 5 ∧
    ((generateJWTClaims 7 5 5).expiresAt = 5 + 300 ∧
     (generateJWTClaims 7 5 5).expiresAt ≤ (generateJWTClaims 7 5 5).issuedAt + 300 ∧
     ((5 : Int) = 5 →
       (generateJWTClaims 7 5 5).expiresAt = (generateJWTClaims 7 5 5).issuedAt + 300) ∧
     (generateJWTClaims 7 5 5).issuer = 7 ∧
     (generateJWTClaims 7 5 5).subject = none ∧
     (generateJWTClaims 7 5 5).audience = []) :=
  ⟨by decide, c4_jwt_claims 7 5 5 (by decide)⟩

/-- C5: with per-installation accessible-repo lists where only the second
installation's list (the one visible under token "tok202") contains the
target URL, the scan does not stop at the second installation: the repo
list fetched under the first installation's token is cached and reused, so
no match is ever observed, a token is exchanged three times (including a
third iteration for installation 303), and the returned installation ID is
0 rather than 202 — refuting "token exchange is invoked at most twice,
iteration does not continue to a third installation, and the returned
installation ID is that of the first matching installation". -/
theorem c5_counterexample :
    ((perInstCtx.fetchRepos (perInstCtx.getAppToken 202)).contains perInstCtx.targetURL
        = true) ∧
    ((perInstCtx.fetchRepos (perInstCtx.getAppToken 101)).contains perInstCtx.targetURL
        = false) ∧
    ((perInstCtx.fetchRepos (perInstCtx.getAppToken 303)).contains perInstCtx.targetURL
        = false) ∧
    getAndUpdateInstallationID perInstCtx threeInsts =
      ([101, 202, 303], Except.ok ("tok303", 0)) := by
  refine ⟨rfl, rfl, rfl, rfl⟩

/-- C5 (amended): the accessible-repo list is fetched once, under the
token obtained for the first scanned installation, and cached for all
later iterations; hence whenever that first-fetched list does not contain
the target URL, a match present only in a later installation's own list is
never observed — the scan traverses the entire list, exchanging a token
for the first installation and for every further non-zero present ID, and
returns installation ID 0. -/
theorem c5_first_fetch_decides (c : ResolverCtx) (a : Int) (rest : List Installation)
    (ha : a ≠ 0)
    (hfirst : c.targetURL ∉ c.fetchRepos (c.getAppToken a))
    (hids : ∀ inst ∈ rest, inst.instID.isSome) :
    getAndUpdateInstallationID c (Installation.mk (some a) :: rest) =
      (a :: exchangedIDs rest, Except.ok (lastToken c rest (c.getAppToken a), 0)) := by
  unfold getAndUpdateInstallationID
  simp [installLoop, ha, listRepos, hfirst,
        installLoop_cached_no_match c rest _ hfirst _ _ hids]

/-- Witness for the amended C5 theorem: target URL in no list, first
installation ID 101, remaining IDs 202 and 303. -/
theorem c5_first_fetch_decides_witness :
    (101 : Int) ≠ 0 ∧
    (demoCtx.targetURL ∉ demoCtx.fetchRepos (demoCtx.getAppToken 101)) ∧
    (∀ inst ∈ [Installation.mk (some 202), Installation.mk (some 303)],
        inst.instID.isSome) ∧
    getAndUpdateInstallationID demoCtx
        (Installation.mk (some 101) ::
          [Installation.mk (some 202), Installation.mk (some 303)]) =
      (101 :: exchangedIDs [Installation.mk (some 202), Installation.mk (some 303)],
       Except.ok
        (lastToken demoCtx [Installation.mk (some 202), Installation.mk (some 303)]
          (demoCtx.getAppToken 101), 0)) :=
  ⟨by decide, by decide, by decide,
   c5_first_fetch_decides demoCtx 101
     [Installation.mk (some 202), Installation.mk (some 303)]
     (by decide) (by decide) (by decide)⟩

/-- C6: a null installation ID does not produce the nil-ID error from just
anywhere in the list — when an earlier installation matches, the scan
breaks before ever examining the null entry: with the first installation
matching and the second entry's ID null, the call returns successfully
(installation ID 1), not the `ProtocolError`. -/
theorem c6_counterexample :
    (Installation.mk none) ∈ [Installation.mk (some 1), Installation.mk none] ∧
    (getAndUpdateInstallationID nilDemoCtx
        [Installation.mk (some 1), Installation.mk none]).2 ≠
      Except.error ResolveError.protocolNilID := by
  refine ⟨by decide, ?_⟩
  have h : (getAndUpdateInstallationID nilDemoCtx
      [Installation.mk (some 1), Installation.mk none]).2 =
      Except.ok ("tok1", 1) := rfl
  rw [h]
  simp

/-- C6 (amended): a null installation ID at any position the scan actually
reaches — i.e. preceded only by well-formed records and no match — makes
`GetAndUpdateInstallationID` return the "installation ID is nil" error,
and no token exchange is attempted for the null entry (nor for anything
after it): the exchange trace is exactly the non-zero IDs of the preceding
records. -/
theorem c6_nil_id_aborts (c : ResolverCtx) (pre post : List Installation)
    (hmatch : ∀ t, c.targetURL ∉ c.fetchRepos t)
    (hids : ∀ inst ∈ pre, inst.instID.isSome) :
    getAndUpdateInstallationID c (pre ++ Installation.mk none :: post) =
      (exchangedIDs pre, Except.error ResolveError.protocolNilID) := by
  unfold getAndUpdateInstallationID
  simpa using installLoop_reaches_nil c post hmatch pre "" none [] (by simp) hids

/-- Witness for the amended C6 theorem: one well-formed record (ID 3)
before the null record, one record after it, no list containing the
target. -/
theorem c6_nil_id_aborts_witness :
    (∀ t, demoCtx.targetURL ∉ demoCtx.fetchRepos t) ∧
    (∀ inst ∈ [Installation.mk (some 3)], inst.instID.isSome) ∧
    getAndUpdateInstallationID demoCtx
        ([Installation.mk (some 3)] ++ Installation.mk none :: [Installation.mk (some 9)]) =
      (exchangedIDs [Installation.mk (some 3)],
       Except.error ResolveError.protocolNilID) :=
  ⟨demoCtx_no_match, by decide,
   c6_nil_id_aborts demoCtx [Installation.mk (some 3)] [Installation.mk (some 9)]
     demoCtx_no_match (by decide)⟩

/-- C8: when no repo list obtainable with any token contains the target
URL and every installation record carries an ID, the scan finishes the
whole list and `GetAndUpdateInstallationID` returns installation ID 0 with
no error, together with the token of the last non-zero ID exchanged (the
initial empty token if none was) — absence of a match is not a failure. -/
theorem c8_no_match_zero_id_no_error (c : ResolverCtx) (insts : List Installation)
    (hmatch : ∀ t, c.targetURL ∉ c.fetchRepos t)
    (hids : ∀ inst ∈ insts, inst.instID.isSome) :
    getAndUpdateInstallationID c insts =
      (exchangedIDs insts, Except.ok (lastToken c insts "", 0)) := by
  unfold getAndUpdateInstallationID
  cases insts with
  | nil => simp [installLoop, exchangedIDs, lastToken]
  | cons inst rest =>
    obtain ⟨i, hi⟩ := Option.isSome_iff_exists.mp (hids inst (List.mem_cons_self _ _))
    have hrest : ∀ x ∈ rest, x.instID.isSome := fun x hx => hids x (List.mem_cons_of_mem _ hx)
    by_cases h0 : i = 0
    · subst h0
      simp [installLoop, hi, listRepos, hmatch,
            installLoop_cached_no_match c rest _ (hmatch "") _ _ hrest,
            exchangedIDs, lastToken]
    · simp [installLoop, hi, h0, listRepos, hmatch,
            installLoop_cached_no_match c rest _ (hmatch (c.getAppToken i)) _ _ hrest,
            exchangedIDs, lastToken]

/-- Witness for the C8 theorem: records with IDs 0 and 5, target URL in no
list; the result is ID 0, no error, token "tok5" (the last exchanged). -/
theorem c8_no_match_witness :
    (∀ t, demoCtx.targetURL ∉ demoCtx.fetchRepos t) ∧
    (∀ inst ∈ demoInsts, inst.instID.isSome) ∧
    getAndUpdateInstallationID demoCtx demoInsts =
      (exchangedIDs demoInsts, Except.ok (lastToken demoCtx demoInsts "", 0)) :=
  ⟨demoCtx_no_match, by decide,
   c8_no_match_zero_id_no_error demoCtx demoInsts demoCtx_no_match (by decide)⟩

/-- C7: on the Status+Comment path, the transmitted commit-status state is
"pending" whenever status is "in_progress" (regardless of the
caller-supplied conclusion, even "success"); otherwise conclusions
"skipped" and "neutral" are both transmitted as "success", and every other
conclusion is transmitted unchanged. -/
theorem c7_commit_state_characterization (app : String) (s : StatusOpts) :
    (buildRepoStatus app s).state =
      (if s.status = "in_progress" then "pending"
       else if s.conclusion = "skipped" ∨ s.conclusion = "neutral" then "success"
       else s.conclusion) := by
  unfold buildRepoStatus commitConclusion
  split_ifs <;> simp_all

/-- C1: get-or-create in `getOrUpdateCheckRunStatus` is a plain
read-then-write, not serialized per key: under the interleaving in which
both callers load (miss), both query the remote (finding nothing), and
both create, two concurrent calls with the same pipelineRunName against an
empty cache issue two remote create calls and the two callers observe
different check-run identifiers — refuting "exactly one remote create call
is issued and both callers observe the same returned identifier". -/
theorem c1_counterexample :
    (cacheRun raceSched cacheInit).t1.pc = CachePc.done ∧
    (cacheRun raceSched cacheInit).t2.pc = CachePc.done ∧
    (cacheRun raceSched cacheInit).shared.creates = 2 ∧
    (cacheRun raceSched cacheInit).t1.val ≠ (cacheRun raceSched cacheInit).t2.val := by
  decide

/-- C1 (amended): get-or-create is a plain read-then-write on the
concurrency-safe map (`Load`, remote query, remote create, `Store`, each
individually atomic but with no per-key serialization of the sequence):
there is an interleaving of the two calls under which two remote create
calls are issued and the callers observe different identifiers, while a
non-interleaved execution — one call completing before the other begins —
issues exactly one remote create and both callers observe the same
identifier. -/
theorem c1_read_then_write :
    ((cacheRun raceSched cacheInit).shared.creates = 2 ∧
     (cacheRun raceSched cacheInit).t1.val ≠ (cacheRun raceSched cacheInit).t2.val) ∧
    ((cacheRun seqSched cacheInit).t1.pc = CachePc.done ∧
     (cacheRun seqSched cacheInit).t2.pc = CachePc.done ∧
     (cacheRun seqSched cacheInit).shared.creates = 1 ∧
     (cacheRun seqSched cacheInit).t1.val = (cacheRun seqSched cacheInit).t2.val ∧
     (cacheRun seqSched cacheInit).t1.val = some 1) := by
  decide

/-- C9: `CustomTime.UnmarshalJSON` decodes the JSON string
`"0001-01-01T00:00:00"` and the empty JSON string to the zero time value
with no error, and on every other JSON string content the outcome is
exactly that of the strict RFC-3339 parser (`time.Parse`, modelled as the
external capability `parse`): its error for unparseable content such as
"not-a-date", its parsed time otherwise. -/
theorem c9_customtime_decode {T : Type} (zeroT : T)
    (parse : List Char → Except (List Char) T) (s : List Char)
    (h1 : s ≠ "0001-01-01T00:00:00".toList) (h2 : s ≠ []) :
    customTimeUnmarshalJSON zeroT parse (quoteChars "0001-01-01T00:00:00".toList) =
      UnmarshalResult.ok zeroT ∧
    customTimeUnmarshalJSON zeroT parse (quoteChars []) = UnmarshalResult.ok zeroT ∧
    customTimeUnmarshalJSON zeroT parse (quoteChars s) =
      (match parse s with
       | Except.ok t => UnmarshalResult.ok t
       | Except.error e => UnmarshalResult.err e) := by
  refine ⟨rfl, rfl, ?_⟩
  unfold customTimeUnmarshalJSON quoteChars
  have hlen : ¬ (('"' :: (s ++ ['"'])).length < 2) := by
    simp
  have hstrip : (('"' :: (s ++ ['"'])).drop 1).dropLast = s := by
    simp
  rw [if_neg hlen, hstrip, if_neg (fun hEq => Or.elim hEq h1 h2)]

/-- Witness for the C9 theorem at the unparseable content "not-a-date",
with an always-rejecting strict parser. -/
theorem c9_customtime_decode_witness :
    ("not-a-date".toList ≠ "0001-01-01T00:00:00".toList) ∧
    ("not-a-date".toList ≠ ([] : List Char)) ∧
    (customTimeUnmarshalJSON (0 : Nat) demoParse (quoteChars "0001-01-01T00:00:00".toList) =
       UnmarshalResult.ok 0 ∧
     customTimeUnmarshalJSON (0 : Nat) demoParse (quoteChars []) = UnmarshalResult.ok 0 ∧
     customTimeUnmarshalJSON (0 : Nat) demoParse (quoteChars "not-a-date".toList) =
       (match demoParse "not-a-date".toList with
        | Except.ok t => UnmarshalResult.ok t
        | Except.error e => UnmarshalResult.err e)) :=
  ⟨by decide, by decide,
   c9_customtime_decode 0 demoParse "not-a-date".toList (by decide) (by decide)⟩

/-- C10: `CustomTime.UnmarshalJSON` slices off the first and last byte
before any check, so it panics exactly on raw inputs shorter than two
bytes (the slice `s[1:len(s)-1]` is out of range — the method is not
total), terminates without panicking on every raw input of length at
least two, and on the non-string token `null` feeds the inner bytes "ul"
to the RFC-3339 parser, producing that parser's error rather than the
zero value. -/
theorem c10_slice_bounds {T : Type} (zeroT : T)
    (parse : List Char → Except (List Char) T) (b : List Char) :
    (customTimeUnmarshalJSON zeroT parse b = UnmarshalResult.panicked ↔ b.length < 2) ∧
    customTimeUnmarshalJSON zeroT parse "null".toList =
      (match parse "ul".toList with
       | Except.ok t => UnmarshalResult.ok t
       | Except.error e => UnmarshalResult.err e) := by
  constructor
  · unfold customTimeUnmarshalJSON
    by_cases hb : b.length < 2
    · simp [hb]
    · rw [if_neg hb]
      simp only [hb, iff_false]
      split
      · intro h
        exact UnmarshalResult.noConfusion h
      · split
        · intro h
          exact UnmarshalResult.noConfusion h
        · intro h
          exact UnmarshalResult.noConfusion h
  · rfl

end PaC
